import Mathlib

/-!
Verification of the difficulty-progression and round-generation core of the
word-spotting puzzle game in `src/App.tsx`.

The TypeScript/React source is shallowly embedded:

* `DifficultyCalculator.calculateStageDifficulty` becomes `calculateStageDifficulty`,
  with JavaScript numbers modelled as rationals (all arithmetic performed by the
  source on the relevant inputs is exact in binary64, so the rational model is
  faithful) and `Math.floor` as `Int.floor`.  The module-level constant
  `width = Dimensions.get('window').width` becomes an explicit parameter.
* `WordGenerator.generateWords` becomes `generateWords`; the two uses of
  `Math.random()` are modelled by an explicit catalog index `setIdx` and a
  stream `g` of swap targets for the Fisher-Yates loop.
* The React component state (`GameState`) and its handlers
  (`handleStageSelect`, `handleWordClick`, `handleModeToggle`,
  `handleBackToMain`, the timer effect and the round-start effect) become pure
  state transformers; `stepFn` packages one user/timer event together with the
  re-render effect that regenerates the round when its dependencies
  (`currentStage`, `showStageSelection`, or the `gameMode`-keyed callback)
  change.
* The body of one 300ms tick of `useFlickeringEffect` becomes `flickerTick`,
  with the rejection-sampling loop for the second index resolved by the first
  position of the random stream that differs from the first draw.
-/

namespace WordGame

inductive GameMode
  | easy
  | hard
deriving DecidableEq, Repr

inductive FailureReason
  | wrong
  | timeout
deriving DecidableEq, Repr

inductive GameScreen
  | stageSelection
  | game
  | wrongAnswer
  | gameOver
deriving DecidableEq, Repr

structure WordSet where
  correct : String
  baseWord : String
deriving DecidableEq, Repr

/-- The catalog `WORD_SETS` from `src/App.tsx`. -/
def WORD_SETS : List WordSet :=
  [⟨"당군", "당근"⟩,
   ⟨"이식", "이삭"⟩,
   ⟨"마이스", "마우스"⟩,
   ⟨"닰", "닭"⟩,
   ⟨"옥톱방", "옥탑방"⟩,
   ⟨"아머리카노", "아메리카노"⟩,
   ⟨"프로펠러", "프로펠라"⟩,
   ⟨"미우스", "마우스"⟩]

def MAX_STAGE : ℕ := 10

def BASE_TIME_LIMIT : ℕ := 20

structure StageDifficulty where
  wordCount : ℤ
  fontSize : ℚ
  buttonSize : ℚ
  timeLimit : ℕ
deriving DecidableEq, Repr

/-- `DifficultyCalculator.calculateStageDifficulty` from `src/App.tsx`.
`width` is the module-level `Dimensions.get('window').width`. -/
def calculateStageDifficulty (width : ℚ) (stage : ℕ) (mode : GameMode) : StageDifficulty :=
  let baseCount : ℚ := if mode = GameMode.easy then 20 else 30
  let countMultiplier : ℚ := 1 + ((stage : ℚ) - 1) * 0.25
  let wordCount : ℤ := ⌊baseCount * countMultiplier⌋
  let lastStageFontSize : ℚ := 16
  let lastStageButtonSize : ℚ := width * 0.10
  let fontSize : ℚ := lastStageFontSize + ((MAX_STAGE : ℚ) - (stage : ℚ)) * 0.8
  let buttonSize : ℚ := lastStageButtonSize + ((MAX_STAGE : ℚ) - (stage : ℚ)) * 0.004
  { wordCount := wordCount
    fontSize := fontSize
    buttonSize := buttonSize
    timeLimit := BASE_TIME_LIMIT }

/-- One swap `[l[i], l[j]] = [l[j], l[i]]` of the Fisher-Yates loop; out-of-range
indices never occur in the source (`j ≤ i < length`), where the swap is the
identity anyway. -/
def listSwap {α : Type} (l : List α) (i j : ℕ) : List α :=
  match l[i]?, l[j]? with
  | some a, some b => (l.set i b).set j a
  | _, _ => l

/-- The Fisher-Yates loop of `WordGenerator.generateWords`:
`for (let i = allWords.length - 1; i > 0; i--) { j = g i; swap i j }`,
where `g i` models `Math.floor(Math.random() * (i + 1))`. -/
def fyAux {α : Type} (g : ℕ → ℕ) : ℕ → List α → List α
  | 0, l => l
  | i + 1, l => fyAux g i (listSwap l (i + 1) (g (i + 1)))

def fisherYates {α : Type} (l : List α) (g : ℕ → ℕ) : List α :=
  fyAux g (l.length - 1) l

/-- `WordGenerator.generateWords` from `src/App.tsx`.  `setIdx` models
`Math.floor(Math.random() * WORD_SETS.length)`; `g` models the random draws of
the shuffle. -/
def generateWords (width : ℚ) (stage : ℕ) (mode : GameMode) (setIdx : ℕ) (g : ℕ → ℕ) :
    String × List String :=
  let randomSet := WORD_SETS.getD setIdx ⟨"", ""⟩
  let difficulty := calculateStageDifficulty width stage mode
  let wrongWords := List.replicate difficulty.wordCount.toNat randomSet.baseWord
  let allWords := wrongWords ++ [randomSet.correct]
  (randomSet.correct, fisherYates allWords g)

/-- The React component state `GameState` from `src/App.tsx`. -/
structure GameState where
  currentStage : ℕ
  maxStage : ℕ
  timeLeft : ℕ
  gameOver : Bool
  correctWord : String
  allWords : List String
  showStageSelection : Bool
  unlockedStages : List ℕ
  showWrongAnswer : Bool
  gameMode : GameMode
  flickeringIndices : List ℕ
  failureReason : FailureReason
deriving DecidableEq, Repr

/-- `GameStateManager.getInitialState` from `src/App.tsx`. -/
def getInitialState : GameState :=
  { currentStage := 1
    maxStage := MAX_STAGE
    timeLeft := BASE_TIME_LIMIT
    gameOver := false
    correctWord := ""
    allWords := []
    showStageSelection := true
    unlockedStages := [1]
    showWrongAnswer := false
    gameMode := GameMode.easy
    flickeringIndices := []
    failureReason := FailureReason.wrong }

/-- `handleStageSelect` from `src/App.tsx` (note: no unlock validation here). -/
def handleStageSelect (stage : ℕ) (st : GameState) : GameState :=
  { st with currentStage := stage, showStageSelection := false, gameOver := false }

/-- `handleWordClick` from `src/App.tsx`. -/
def handleWordClick (word : String) (st : GameState) : GameState :=
  if st.gameOver || st.showWrongAnswer then st
  else if word = st.correctWord then
    let nextStage := st.currentStage + 1
    { st with
        currentStage := nextStage
        unlockedStages :=
          if nextStage ≤ st.maxStage then
            (st.unlockedStages.filter (fun s => s != nextStage)) ++ [nextStage]
          else st.unlockedStages
        showStageSelection := false
        gameOver := false }
  else
    { st with showWrongAnswer := true, failureReason := FailureReason.wrong }

/-- `handleModeToggle` from `src/App.tsx`. -/
def handleModeToggle (st : GameState) : GameState :=
  { st with gameMode := if st.gameMode = GameMode.easy then GameMode.hard else GameMode.easy }

/-- The timer countdown effect of `src/App.tsx` (one 1s step: decrement, or
flag a timeout when the counter has reached zero during active play). -/
def timerTick (st : GameState) : GameState :=
  if st.gameOver = false ∧ 0 < st.timeLeft ∧ st.showWrongAnswer = false ∧
      st.showStageSelection = false then
    { st with timeLeft := st.timeLeft - 1 }
  else if st.timeLeft = 0 ∧ st.gameOver = false ∧ st.showWrongAnswer = false ∧
      st.showStageSelection = false then
    { st with showWrongAnswer := true, failureReason := FailureReason.timeout }
  else st

/-- `getCurrentScreen` from `src/App.tsx`. -/
def getCurrentScreen (st : GameState) : GameScreen :=
  if st.showWrongAnswer then GameScreen.wrongAnswer
  else if st.gameOver then GameScreen.gameOver
  else if st.showStageSelection then GameScreen.stageSelection
  else GameScreen.game

/-- The round-start effect of `src/App.tsx`: when not on the stage-selection
screen, regenerate the round for the current stage (the body of the
`useEffect` that runs the round initializer). -/
def roundStartEffect (width : ℚ) (setIdx : ℕ) (g : ℕ → ℕ) (st : GameState) : GameState :=
  if st.showStageSelection then st
  else
    let gen := generateWords width st.currentStage st.gameMode setIdx g
    { st with
        correctWord := gen.1
        allWords := gen.2
        timeLeft := BASE_TIME_LIMIT
        gameOver := false }

/-- The user/timer intents the UI layer feeds back to the controller. -/
inductive Event
  | selectStage (s : ℕ)
  | tapWord (w : String)
  | toggleMode
  | tick
  | backToMain
deriving DecidableEq, Repr

/-- Dispatch one event to the handler the UI wires it to.  A stage tap goes
through the guard of `StageSelectionScreen`
(`unlockedStages.includes(stage) && onStageSelect(stage)`); `backToMain`
is `handleBackToMain`, i.e. a full reset to the initial state. -/
def dispatchEvent (e : Event) (st : GameState) : GameState :=
  match e with
  | Event.selectStage s => if s ∈ st.unlockedStages then handleStageSelect s st else st
  | Event.tapWord w => handleWordClick w st
  | Event.toggleMode => handleModeToggle st
  | Event.tick => timerTick st
  | Event.backToMain => getInitialState

/-- One controller step: handle the event, then run the round-start effect
exactly when one of its dependencies (`currentStage`, `showStageSelection`,
or the `gameMode`-keyed callback identity) changed. -/
def stepFn (width : ℚ) (setIdx : ℕ) (g : ℕ → ℕ) (e : Event) (st : GameState) : GameState :=
  if (dispatchEvent e st).currentStage = st.currentStage ∧
      (dispatchEvent e st).showStageSelection = st.showStageSelection ∧
      (dispatchEvent e st).gameMode = st.gameMode then dispatchEvent e st
  else roundStartEffect width setIdx g (dispatchEvent e st)

/-- States reachable from the initial state by UI/timer events (each step draws
a fresh in-range catalog index and an arbitrary shuffle stream). -/
inductive Reachable (width : ℚ) : GameState → Prop
  | init : Reachable width getInitialState
  | step (st : GameState) (e : Event) (setIdx : ℕ) (g : ℕ → ℕ) :
      setIdx < WORD_SETS.length → Reachable width st →
      Reachable width (stepFn width setIdx g e st)

/-- The body of one 300ms tick of `useFlickeringEffect` from `src/App.tsx`.
`f` is the stream of draws `Math.floor(Math.random() * wordCount)`: `f 0` is
the always-present first index, and for stage ≥ 5 the
`do … while (secondIndex === newIndices[0])` loop consumes `f 1, f 2, …`
until a draw differs from the first; `h` witnesses that some draw differs,
which is exactly the condition under which the source loop terminates. -/
def flickerTick (stage : ℕ) (f : ℕ → ℕ) (h : ∃ k, f (k + 1) ≠ f 0) : List ℕ :=
  if 5 ≤ stage then [f 0, f (Nat.find h + 1)] else [f 0]

/-- A round-lost state: the wrong-answer screen right after a failed round. -/
def lostState : GameState :=
  { getInitialState with showStageSelection := false, showWrongAnswer := true }

/-- Modelled from the spec:
"`decoyCount = floor(baseCount * (1 + (stage-1) * 0.25))`" with
"`baseCount` = 20 if mode=Easy else 30"; stated from the spec's words for
comparison with the source's `calculateStageDifficulty`. -/
def specDecoyCount (stage : ℕ) (mode : GameMode) : ℤ :=
  ⌊(if mode = GameMode.easy then (20 : ℚ) else 30) * (1 + ((stage : ℚ) - 1) * 0.25)⌋

/-- Modelled from the spec:
"`buttonSize = lastStageButtonSize + (maxStage - stage) * 0.004 * referenceDimension`,
where `lastStageButtonSize = 0.10 * referenceDimension`"; stated from the
spec's words for comparison with the source's `calculateStageDifficulty`. -/
def specButtonSize (width : ℚ) (stage : ℕ) : ℚ :=
  0.10 * width + ((MAX_STAGE : ℚ) - (stage : ℚ)) * 0.004 * width

/-- A concrete play state at stage 10 with all stages unlocked, used to
exercise the final correct tap. -/
def stageTenState : GameState :=
  { currentStage := 10
    maxStage := MAX_STAGE
    timeLeft := 20
    gameOver := false
    correctWord := "당군"
    allWords := List.replicate 65 "당근" ++ ["당군"]
    showStageSelection := false
    unlockedStages := [1, 2, 3, 4, 5, 6, 7, 8, 9, 10]
    showWrongAnswer := false
    gameMode := GameMode.easy
    flickeringIndices := []
    failureReason := FailureReason.wrong }

/-! ### Helper lemmas -/

theorem cons_set_perm {α : Type} (t : List α) :
    ∀ (m : ℕ) (x b : α), t[m]? = some b → List.Perm (b :: t.set m x) (x :: t) := by
  induction t with
  | nil => intro m x b h; simp at h
  | cons y s ih =>
    intro m x b h
    cases m with
    | zero =>
      rw [List.getElem?_cons_zero] at h
      injection h with h
      subst h
      simp only [List.set_cons_zero]
      apply List.Perm.swap
    | succ k =>
      simp only [List.getElem?_cons_succ] at h
      simp only [List.set_cons_succ]
      exact ((List.Perm.swap y b _).trans ((ih k x b h).cons y)).trans (List.Perm.swap x y s)

theorem set_set_perm_of_getElem {α : Type} (l : List α) :
    ∀ (i j : ℕ) (a b : α), l[i]? = some a → l[j]? = some b →
      List.Perm ((l.set i b).set j a) l := by
  induction l with
  | nil => intro i j a b h1 _; simp at h1
  | cons x t ih =>
    intro i j a b h1 h2
    cases i with
    | zero =>
      rw [List.getElem?_cons_zero] at h1
      injection h1 with h1
      subst h1
      cases j with
      | zero =>
        rw [List.getElem?_cons_zero] at h2
        injection h2 with h2
        subst h2
        simp
      | succ m =>
        simp only [List.getElem?_cons_succ] at h2
        simp only [List.set_cons_zero, List.set_cons_succ]
        exact cons_set_perm t m _ b h2
    | succ n =>
      simp only [List.getElem?_cons_succ] at h1
      cases j with
      | zero =>
        rw [List.getElem?_cons_zero] at h2
        injection h2 with h2
        subst h2
        simp only [List.set_cons_succ, List.set_cons_zero]
        exact cons_set_perm t n _ a h1
      | succ m =>
        simp only [List.getElem?_cons_succ] at h2
        simp only [List.set_cons_succ]
        exact List.Perm.cons x (ih n m a b h1 h2)

theorem listSwap_perm {α : Type} (l : List α) (i j : ℕ) :
    List.Perm (listSwap l i j) l := by
  unfold listSwap
  cases h1 : l[i]? with
  | none => cases h2 : l[j]? <;> simp
  | some a =>
    cases h2 : l[j]? with
    | none => simp
    | some b => simpa using set_set_perm_of_getElem l i j a b h1 h2

theorem fyAux_perm {α : Type} (g : ℕ → ℕ) :
    ∀ (n : ℕ) (l : List α), List.Perm (fyAux g n l) l := by
  intro n
  induction n with
  | zero => intro l; simp [fyAux]
  | succ k ih =>
    intro l
    exact (ih (listSwap l (k + 1) (g (k + 1)))).trans (listSwap_perm l (k + 1) (g (k + 1)))

theorem fisherYates_perm {α : Type} (l : List α) (g : ℕ → ℕ) :
    List.Perm (fisherYates l g) l :=
  fyAux_perm g (l.length - 1) l

theorem generateWords_length (width : ℚ) (stage : ℕ) (mode : GameMode) (setIdx : ℕ)
    (g : ℕ → ℕ) :
    (generateWords width stage mode setIdx g).2.length =
      (calculateStageDifficulty width stage mode).wordCount.toNat + 1 := by
  unfold generateWords
  simp [(fisherYates_perm _ g).length_eq]

theorem catalog_distinct : ∀ ws ∈ WORD_SETS, ws.correct ≠ ws.baseWord := by
  decide

theorem generateWords_count (width : ℚ) (stage : ℕ) (mode : GameMode) (setIdx : ℕ)
    (g : ℕ → ℕ) (h : setIdx < WORD_SETS.length) :
    (generateWords width stage mode setIdx g).2.count
      (generateWords width stage mode setIdx g).1 = 1 := by
  have hmem : WORD_SETS.getD setIdx ⟨"", ""⟩ ∈ WORD_SETS := by
    rw [List.getD_eq_getElem WORD_SETS ⟨"", ""⟩ h]
    exact List.getElem_mem h
  have hne := catalog_distinct _ hmem
  simp only [List.getD_eq_getElem?_getD] at hne
  unfold generateWords
  simp only
  rw [(fisherYates_perm _ g).count_eq]
  rw [List.count_append, List.count_replicate]
  simp [hne, Ne.symm hne]

theorem wordCount_lower (width : ℚ) (stage : ℕ) (mode : GameMode) (h : 1 ≤ stage) :
    20 ≤ (calculateStageDifficulty width stage mode).wordCount := by
  have h1 : (1 : ℚ) ≤ (stage : ℚ) := by exact_mod_cast h
  cases mode <;>
    · unfold calculateStageDifficulty
      simp only
      apply Int.le_floor.mpr
      push_cast
      nlinarith

theorem roundStartEffect_proj (width : ℚ) (setIdx : ℕ) (g : ℕ → ℕ) (st : GameState) :
    (roundStartEffect width setIdx g st).currentStage = st.currentStage ∧
    (roundStartEffect width setIdx g st).maxStage = st.maxStage ∧
    (roundStartEffect width setIdx g st).unlockedStages = st.unlockedStages ∧
    (roundStartEffect width setIdx g st).gameMode = st.gameMode := by
  unfold roundStartEffect
  split <;> exact ⟨rfl, rfl, rfl, rfl⟩

theorem stepFn_cases (width : ℚ) (setIdx : ℕ) (g : ℕ → ℕ) (e : Event) (st : GameState) :
    stepFn width setIdx g e st = dispatchEvent e st ∨
    stepFn width setIdx g e st = roundStartEffect width setIdx g (dispatchEvent e st) := by
  unfold stepFn
  split
  · exact Or.inl rfl
  · exact Or.inr rfl

theorem stepFn_proj (width : ℚ) (setIdx : ℕ) (g : ℕ → ℕ) (e : Event) (st : GameState) :
    (stepFn width setIdx g e st).currentStage = (dispatchEvent e st).currentStage ∧
    (stepFn width setIdx g e st).maxStage = (dispatchEvent e st).maxStage ∧
    (stepFn width setIdx g e st).unlockedStages = (dispatchEvent e st).unlockedStages := by
  rcases stepFn_cases width setIdx g e st with h | h <;> rw [h]
  · exact ⟨rfl, rfl, rfl⟩
  · obtain ⟨a, b, c, _⟩ := roundStartEffect_proj width setIdx g (dispatchEvent e st)
    exact ⟨a, b, c⟩

theorem mem_filterConcat {l : List ℕ} {n x : ℕ} (hx : x ∈ l) :
    x ∈ (l.filter (fun s => s != n)) ++ [n] := by
  rcases eq_or_ne x n with rfl | hne
  · simp
  · exact List.mem_append_left _ (List.mem_filter.mpr ⟨hx, by simpa using hne⟩)

theorem mem_filterConcat_elim {l : List ℕ} {n x : ℕ}
    (hx : x ∈ (l.filter (fun s => s != n)) ++ [n]) : x ∈ l ∨ x = n := by
  rcases List.mem_append.mp hx with h | h
  · exact Or.inl (List.mem_filter.mp h).1
  · simp at h
    exact Or.inr h

theorem handleWordClick_unlocked_mono (w : String) (st : GameState) :
    ∀ x ∈ st.unlockedStages, x ∈ (handleWordClick w st).unlockedStages := by
  intro x hx
  unfold handleWordClick
  split
  · exact hx
  · split
    · dsimp only
      split
      · exact mem_filterConcat hx
      · exact hx
    · exact hx

theorem handleWordClick_unlocked_elim (w : String) (st : GameState) :
    ∀ x ∈ (handleWordClick w st).unlockedStages,
      x ∈ st.unlockedStages ∨ (x = st.currentStage + 1 ∧ x ≤ st.maxStage) := by
  intro x hx
  unfold handleWordClick at hx
  split at hx
  · exact Or.inl hx
  · split at hx
    · dsimp only at hx
      split at hx
      case isTrue hle =>
        rcases mem_filterConcat_elim hx with h | h
        · exact Or.inl h
        · exact Or.inr ⟨h, h ▸ hle⟩
      case isFalse _ => exact Or.inl hx
    · exact Or.inl hx

theorem handleWordClick_proj (w : String) (st : GameState) :
    (handleWordClick w st).maxStage = st.maxStage ∧
    ((handleWordClick w st).currentStage = st.currentStage ∨
      (handleWordClick w st).currentStage = st.currentStage + 1) := by
  unfold handleWordClick
  split
  · exact ⟨rfl, Or.inl rfl⟩
  · split
    · exact ⟨rfl, Or.inr rfl⟩
    · exact ⟨rfl, Or.inl rfl⟩

theorem dispatch_invariant (e : Event) (st : GameState)
    (h1 : st.maxStage = 10) (h2 : 1 ≤ st.currentStage) (h3 : 1 ∈ st.unlockedStages)
    (h4 : ∀ x ∈ st.unlockedStages, 1 ≤ x ∧ x ≤ st.maxStage) :
    (dispatchEvent e st).maxStage = 10 ∧ 1 ≤ (dispatchEvent e st).currentStage ∧
    1 ∈ (dispatchEvent e st).unlockedStages ∧
    ∀ x ∈ (dispatchEvent e st).unlockedStages,
      1 ≤ x ∧ x ≤ (dispatchEvent e st).maxStage := by
  cases e with
  | selectStage s =>
    simp only [dispatchEvent]
    split
    case isTrue hmem => exact ⟨h1, (h4 s hmem).1, h3, h4⟩
    case isFalse _ => exact ⟨h1, h2, h3, h4⟩
  | tapWord w =>
    simp only [dispatchEvent]
    obtain ⟨hm, hc⟩ := handleWordClick_proj w st
    refine ⟨?_, ?_, handleWordClick_unlocked_mono w st 1 h3, ?_⟩
    · rw [hm]
      exact h1
    · rcases hc with h | h <;> rw [h] <;> omega
    · intro x hx
      rw [hm]
      rcases handleWordClick_unlocked_elim w st x hx with h | h
      · exact h4 x h
      · exact ⟨by omega, h.2⟩
  | toggleMode =>
    simp only [dispatchEvent]
    exact ⟨h1, h2, h3, h4⟩
  | tick =>
    simp only [dispatchEvent]
    unfold timerTick
    split
    · exact ⟨h1, h2, h3, h4⟩
    · split
      · exact ⟨h1, h2, h3, h4⟩
      · exact ⟨h1, h2, h3, h4⟩
  | backToMain =>
    simp only [dispatchEvent]
    exact ⟨rfl, le_refl 1, by decide, by decide⟩

theorem stepFn_invariant (width : ℚ) (setIdx : ℕ) (g : ℕ → ℕ) (e : Event) (st : GameState)
    (h1 : st.maxStage = 10) (h2 : 1 ≤ st.currentStage) (h3 : 1 ∈ st.unlockedStages)
    (h4 : ∀ x ∈ st.unlockedStages, 1 ≤ x ∧ x ≤ st.maxStage) :
    (stepFn width setIdx g e st).maxStage = 10 ∧
    1 ≤ (stepFn width setIdx g e st).currentStage ∧
    1 ∈ (stepFn width setIdx g e st).unlockedStages ∧
    ∀ x ∈ (stepFn width setIdx g e st).unlockedStages,
      1 ≤ x ∧ x ≤ (stepFn width setIdx g e st).maxStage := by
  obtain ⟨pc, pm, pu⟩ := stepFn_proj width setIdx g e st
  rw [pc, pm, pu]
  exact dispatch_invariant e st h1 h2 h3 h4

theorem reachable_invariant (width : ℚ) (st : GameState) (h : Reachable width st) :
    st.maxStage = 10 ∧ 1 ≤ st.currentStage ∧ 1 ∈ st.unlockedStages ∧
    ∀ x ∈ st.unlockedStages, 1 ≤ x ∧ x ≤ st.maxStage := by
  induction h with
  | init => exact ⟨rfl, le_refl 1, by decide, by decide⟩
  | step st e setIdx g hi hr ih =>
    exact stepFn_invariant width setIdx g e st ih.1 ih.2.1 ih.2.2.1 ih.2.2.2

/-! ### Claims -/

/-- C1: for every stage in [1,10], every mode, and every RNG outcome, the
round produced by `generateWords` has `cells.length = decoyCount + 1` (with
`decoyCount` the difficulty curve's word count for that stage and mode) and
exactly one cell equal to `correctWord`. -/
theorem round_invariant (width : ℚ) (stage : ℕ) (mode : GameMode) (setIdx : ℕ) (g : ℕ → ℕ)
    (h1 : 1 ≤ stage) (h2 : stage ≤ 10) (h3 : setIdx < WORD_SETS.length) :
    ((generateWords width stage mode setIdx g).2.length : ℤ) =
      (calculateStageDifficulty width stage mode).wordCount + 1 ∧
    (generateWords width stage mode setIdx g).2.count
      (generateWords width stage mode setIdx g).1 = 1 := by
  constructor
  · rw [generateWords_length]
    have h20 := wordCount_lower width stage mode h1
    push_cast
    rw [Int.toNat_of_nonneg (by linarith)]
  · exact generateWords_count width stage mode setIdx g h3

theorem round_invariant_witness :
    ((1 : ℕ) ≤ 1 ∧ (1 : ℕ) ≤ 10 ∧ 0 < WORD_SETS.length) ∧
    ((generateWords 375 1 GameMode.easy 0 (fun i => i)).2.length : ℤ) =
      (calculateStageDifficulty 375 1 GameMode.easy).wordCount + 1 ∧
    (generateWords 375 1 GameMode.easy 0 (fun i => i)).2.count
      (generateWords 375 1 GameMode.easy 0 (fun i => i)).1 = 1 :=
  ⟨⟨le_refl 1, by norm_num, by decide⟩,
   round_invariant 375 1 GameMode.easy 0 (fun i => i) (le_refl 1) (by norm_num) (by decide)⟩

/-- C2: the difficulty computation agrees with the spec formula
`decoyCount = floor(baseCount * (1 + (stage-1) * 0.25))` with `baseCount` 20
for Easy and 30 for Hard; in particular stage 1 / Easy yields 20 decoys and a
round of 21 cells. -/
theorem decoy_count_formula (width : ℚ) (stage : ℕ) (mode : GameMode)
    (h1 : 1 ≤ stage) (h2 : stage ≤ 10) :
    (calculateStageDifficulty width stage mode).wordCount = specDecoyCount stage mode ∧
    (calculateStageDifficulty width 1 GameMode.easy).wordCount = 20 ∧
    ∀ setIdx g, (generateWords width 1 GameMode.easy setIdx g).2.length = 21 := by
  refine ⟨rfl, ?_, ?_⟩
  · norm_num [calculateStageDifficulty]
  · intro setIdx g
    rw [generateWords_length]
    norm_num [calculateStageDifficulty]
    decide

theorem decoy_count_formula_witness :
    ((1 : ℕ) ≤ 1 ∧ (1 : ℕ) ≤ 10) ∧
    (calculateStageDifficulty 375 1 GameMode.easy).wordCount =
      specDecoyCount 1 GameMode.easy :=
  ⟨⟨le_refl 1, by norm_num⟩, (decoy_count_formula 375 1 GameMode.easy (le_refl 1) (by norm_num)).1⟩

/-- C5 counterexample: at stage 1 with width 375, the source's `buttonSize`
(375·0.10 + 9·0.004 = 37.536) differs from the spec's formula
`0.10·width + (maxStage − stage)·0.004·width` (= 51): the per-stage increment
in the code is not scaled by the reference dimension. -/
theorem buttonSize_counterexample :
    (calculateStageDifficulty 375 1 GameMode.easy).buttonSize ≠ specButtonSize 375 1 := by
  norm_num [calculateStageDifficulty, specButtonSize, MAX_STAGE]

/-- C5 amended: for every stage and mode, the computed `buttonSize` equals
`0.10 · width + (maxStage − stage) · 0.004`, i.e. the base size is scaled by
the surface width but the per-stage increment is the absolute constant 0.004;
at stage 10 the size is exactly `0.10 · width`. -/
theorem buttonSize_closed_form (width : ℚ) (stage : ℕ) (mode : GameMode) :
    (calculateStageDifficulty width stage mode).buttonSize =
      width * 0.10 + ((MAX_STAGE : ℚ) - (stage : ℚ)) * 0.004 ∧
    (calculateStageDifficulty width 10 mode).buttonSize = width * 0.10 := by
  constructor
  · rfl
  · norm_num [calculateStageDifficulty, MAX_STAGE]

/-- C7: one flicker tick emits exactly one index for stage < 5 and exactly two
distinct indices for stage in [5,10], all drawn from `[0, wordCount)` when the
draw stream is in range. -/
theorem flicker_cardinality (stage wc : ℕ) (f : ℕ → ℕ)
    (hf : ∀ n, f n < wc) (h : ∃ k, f (k + 1) ≠ f 0) :
    (stage < 5 → (flickerTick stage f h).length = 1) ∧
    (5 ≤ stage → stage ≤ 10 →
      (flickerTick stage f h).length = 2 ∧ (flickerTick stage f h).Nodup) ∧
    (∀ i ∈ flickerTick stage f h, i < wc) := by
  unfold flickerTick
  refine ⟨?_, ?_, ?_⟩
  · intro hs
    rw [if_neg (by omega)]
    rfl
  · intro hs _
    rw [if_pos hs]
    exact ⟨rfl, by simp [Ne.symm (Nat.find_spec h)]⟩
  · intro i hi
    by_cases hs : 5 ≤ stage
    · rw [if_pos hs] at hi
      simp only [List.mem_cons, List.not_mem_nil, or_false] at hi
      rcases hi with rfl | rfl
      · exact hf 0
      · exact hf _
    · rw [if_neg hs] at hi
      simp only [List.mem_singleton] at hi
      exact hi ▸ hf 0

theorem flicker_cardinality_witness :
    (∀ n : ℕ, n % 2 < 2) ∧
    (flickerTick 5 (fun n => n % 2) ⟨0, by decide⟩).length = 2 ∧
    (flickerTick 5 (fun n => n % 2) ⟨0, by decide⟩).Nodup :=
  ⟨fun n => Nat.mod_lt n (by norm_num),
   (flicker_cardinality 5 2 (fun n => n % 2) (fun n => Nat.mod_lt n (by norm_num))
      ⟨0, by decide⟩).2.1 (le_refl 5) (by norm_num)⟩

/-- C8: every reachable stage is at least 1, every round generated at such a
stage has at least 2 cells, and therefore the rejection-sampling loop for the
second flicker index terminates: any draw stream that (with probability one)
eventually emits every value below the cell count must emit a draw differing
from the first one. -/
theorem rejection_sampling_terminates (width : ℚ) (stage : ℕ) (mode : GameMode)
    (setIdx : ℕ) (g : ℕ → ℕ) (h1 : 1 ≤ stage) (h3 : setIdx < WORD_SETS.length) :
    (∀ st, Reachable width st → 1 ≤ st.currentStage) ∧
    2 ≤ (generateWords width stage mode setIdx g).2.length ∧
    ∀ f : ℕ → ℕ,
      (∀ v, v < (generateWords width stage mode setIdx g).2.length →
        ∀ N, ∃ k, N ≤ k ∧ f k = v) →
      ∃ k, f (k + 1) ≠ f 0 := by
  have hlen : 2 ≤ (generateWords width stage mode setIdx g).2.length := by
    rw [generateWords_length]
    have := wordCount_lower width stage mode h1
    omega
  refine ⟨fun st h => (reachable_invariant width st h).2.1, hlen, ?_⟩
  intro f hfair
  have hv : ∃ v, v < (generateWords width stage mode setIdx g).2.length ∧ v ≠ f 0 := by
    by_cases h0 : f 0 = 0
    · exact ⟨1, by omega, by omega⟩
    · exact ⟨0, by omega, fun hh => h0 hh.symm⟩
  obtain ⟨v, hvL, hvne⟩ := hv
  obtain ⟨k, hk1, hkv⟩ := hfair v hvL 1
  obtain ⟨k0, rfl⟩ : ∃ k0, k = k0 + 1 := ⟨k - 1, by omega⟩
  refine ⟨k0, ?_⟩
  rw [hkv]
  exact hvne

theorem rejection_sampling_terminates_witness :
    ((1 : ℕ) ≤ 1 ∧ 0 < WORD_SETS.length) ∧
    2 ≤ (generateWords 375 1 GameMode.easy 0 (fun i => i)).2.length :=
  ⟨⟨le_refl 1, by decide⟩,
   (rejection_sampling_terminates 375 1 GameMode.easy 0 (fun i => i) (le_refl 1)
      (by decide)).2.1⟩

/-- C10: the decoy count is monotonically non-decreasing in the stage number,
for both modes and any surface width. -/
theorem decoy_count_monotone (width : ℚ) (stage : ℕ) (mode : GameMode)
    (h1 : 1 ≤ stage) (h2 : stage ≤ 9) :
    (calculateStageDifficulty width stage mode).wordCount ≤
      (calculateStageDifficulty width (stage + 1) mode).wordCount := by
  unfold calculateStageDifficulty
  simp only
  apply Int.floor_le_floor
  apply mul_le_mul_of_nonneg_left
  · push_cast
    linarith
  · split <;> norm_num

theorem decoy_count_monotone_witness :
    ((1 : ℕ) ≤ 1 ∧ (1 : ℕ) ≤ 9) ∧
    (calculateStageDifficulty 375 1 GameMode.hard).wordCount ≤
      (calculateStageDifficulty 375 2 GameMode.hard).wordCount :=
  ⟨⟨le_refl 1, by norm_num⟩, decoy_count_monotone 375 1 GameMode.hard (le_refl 1) (by norm_num)⟩

/-- C4 counterexample: stage 5 is locked in the initial state, yet invoking the
controller handler `handleStageSelect` directly changes the state (it performs
no unlock re-validation; the only check lives in the UI component). -/
theorem locked_stage_counterexample :
    5 ∉ getInitialState.unlockedStages ∧
    handleStageSelect 5 getInitialState ≠ getInitialState := by
  decide

/-- C4 amended: a tap on a locked stage is a no-op only because the UI layer
(`StageSelectionScreen`) guards and disables the control; routed through that
guard (`stepFn` with a `selectStage` event), a locked-stage selection leaves
the whole state unchanged, while the bare handler itself does not re-validate. -/
theorem locked_stage_ui_noop (width : ℚ) (setIdx : ℕ) (g : ℕ → ℕ) (s : ℕ) (st : GameState)
    (h : s ∉ st.unlockedStages) :
    stepFn width setIdx g (Event.selectStage s) st = st := by
  unfold stepFn
  simp only [dispatchEvent]
  rw [if_neg h]
  rw [if_pos ⟨rfl, rfl, rfl⟩]

theorem locked_stage_ui_noop_witness :
    5 ∉ getInitialState.unlockedStages ∧
    stepFn 375 0 (fun i => i) (Event.selectStage 5) getInitialState = getInitialState :=
  ⟨by decide, locked_stage_ui_noop 375 0 (fun i => i) 5 getInitialState (by decide)⟩

/-- C9 counterexample: in the initial state the screen is the stage selection,
which is not the playing screen, yet `handleWordClick` is not ignored there:
tapping a non-matching word flips the state to the wrong-answer screen. -/
theorem tap_word_stage_select_counterexample :
    getCurrentScreen getInitialState = GameScreen.stageSelection ∧
    handleWordClick "x" getInitialState ≠ getInitialState := by
  decide

/-- C9 amended: `handleWordClick` is guarded only by the `gameOver` and
`showWrongAnswer` flags, so a word tap is ignored (state unchanged) exactly on
the wrong-answer and game-over screens; on the stage-selection screen the
handler is unguarded (the UI merely renders no word buttons there). -/
theorem tap_word_ignored_when_lost (st : GameState) (w : String)
    (h : getCurrentScreen st = GameScreen.wrongAnswer ∨
         getCurrentScreen st = GameScreen.gameOver) :
    handleWordClick w st = st := by
  have hguard : st.gameOver = true ∨ st.showWrongAnswer = true := by
    by_cases hwa : st.showWrongAnswer = true
    · exact Or.inr hwa
    · by_cases hgo : st.gameOver = true
      · exact Or.inl hgo
      · exfalso
        have hwa2 : st.showWrongAnswer = false := by simpa using hwa
        have hgo2 : st.gameOver = false := by simpa using hgo
        unfold getCurrentScreen at h
        rw [hwa2, hgo2] at h
        rcases h with h | h <;> simp at h <;> split at h <;> simp at h
  unfold handleWordClick
  rcases hguard with hg | hg <;> rw [if_pos (by simp [hg])]

theorem tap_word_ignored_when_lost_witness :
    (getCurrentScreen lostState = GameScreen.wrongAnswer ∨
      getCurrentScreen lostState = GameScreen.gameOver) ∧
    handleWordClick "당군" lostState = lostState :=
  ⟨Or.inl (by decide), tap_word_ignored_when_lost lostState "당군" (Or.inl (by decide))⟩

/-- C6: in every reachable state, `unlockedStages` contains 1 and is contained
in `{1..maxStage}`; and no event other than `backToMain` ever removes a member
of `unlockedStages`. -/
theorem unlocked_stages_invariant (width : ℚ) :
    (∀ st, Reachable width st →
      1 ∈ st.unlockedStages ∧ ∀ x ∈ st.unlockedStages, 1 ≤ x ∧ x ≤ st.maxStage) ∧
    (∀ st (e : Event) (setIdx : ℕ) (g : ℕ → ℕ), e ≠ Event.backToMain →
      ∀ x ∈ st.unlockedStages, x ∈ (stepFn width setIdx g e st).unlockedStages) := by
  constructor
  · intro st h
    obtain ⟨_, _, h3, h4⟩ := reachable_invariant width st h
    exact ⟨h3, h4⟩
  · intro st e setIdx g he x hx
    rw [(stepFn_proj width setIdx g e st).2.2]
    cases e with
    | selectStage s =>
      simp only [dispatchEvent]
      split
      · exact hx
      · exact hx
    | tapWord w => exact handleWordClick_unlocked_mono w st x hx
    | toggleMode => exact hx
    | tick =>
      simp only [dispatchEvent]
      unfold timerTick
      split
      · exact hx
      · split
        · exact hx
        · exact hx
    | backToMain => exact absurd rfl he

theorem unlocked_stages_invariant_witness :
    1 ∈ getInitialState.unlockedStages ∧
    1 ∈ (stepFn 375 0 (fun i => i) Event.tick getInitialState).unlockedStages :=
  ⟨((unlocked_stages_invariant 375).1 getInitialState Reachable.init).1,
   (unlocked_stages_invariant 375).2 getInitialState Event.tick 0 (fun i => i)
     (by decide) 1 (by decide)⟩

/-- C3 amended (corrected): tapping the correct word at stage 10 does not add
stage 11 to `unlockedStages`, but the controller does not treat the session as
complete: it sets `currentStage` to 11, stays on the game screen, and the
round-start effect generates a fresh round at stage 11, beyond `maxStage`. -/
theorem final_stage_tap (width : ℚ) (setIdx : ℕ) (g : ℕ → ℕ) (st : GameState)
    (hstage : st.currentStage = 10) (hmax : st.maxStage = 10)
    (hgo : st.gameOver = false) (hwa : st.showWrongAnswer = false)
    (hss : st.showStageSelection = false) :
    (stepFn width setIdx g (Event.tapWord st.correctWord) st).unlockedStages =
      st.unlockedStages ∧
    (stepFn width setIdx g (Event.tapWord st.correctWord) st).currentStage = 11 ∧
    getCurrentScreen (stepFn width setIdx g (Event.tapWord st.correctWord) st) =
      GameScreen.game ∧
    (stepFn width setIdx g (Event.tapWord st.correctWord) st).allWords =
      (generateWords width 11 st.gameMode setIdx g).2 := by
  have hw : handleWordClick st.correctWord st =
      { st with currentStage := 11, showStageSelection := false, gameOver := false } := by
    unfold handleWordClick
    rw [if_neg (by simp [hgo, hwa]), if_pos rfl]
    dsimp only
    rw [hstage, hmax]
    rw [if_neg (by omega)]
  have hd : dispatchEvent (Event.tapWord st.correctWord) st =
      { st with currentStage := 11, showStageSelection := false, gameOver := false } := hw
  unfold stepFn
  rw [hd]
  rw [if_neg (by intro hc; rw [hstage] at hc; simp at hc)]
  unfold roundStartEffect
  rw [if_neg (by simp)]
  refine ⟨rfl, rfl, ?_, rfl⟩
  unfold getCurrentScreen
  dsimp only
  rw [hwa]
  simp

theorem final_stage_tap_witness :
    (stageTenState.currentStage = 10 ∧ stageTenState.maxStage = 10) ∧
    (stepFn 375 0 (fun i => i) (Event.tapWord stageTenState.correctWord)
        stageTenState).unlockedStages = stageTenState.unlockedStages ∧
    (stepFn 375 0 (fun i => i) (Event.tapWord stageTenState.correctWord)
        stageTenState).currentStage = 11 ∧
    getCurrentScreen (stepFn 375 0 (fun i => i) (Event.tapWord stageTenState.correctWord)
        stageTenState) = GameScreen.game ∧
    (stepFn 375 0 (fun i => i) (Event.tapWord stageTenState.correctWord)
        stageTenState).allWords =
      (generateWords 375 11 stageTenState.gameMode 0 (fun i => i)).2 :=
  ⟨⟨rfl, rfl⟩, final_stage_tap 375 0 (fun i => i) stageTenState rfl rfl rfl rfl rfl⟩

/-- C3 counterexample: from the concrete stage-10 play state with all stages
unlocked, tapping the correct word leaves the controller on the game screen at
`currentStage` 11 with a freshly generated 71-cell round — it starts a further
round at a stage beyond `maxStage` instead of treating the session as
complete. -/
theorem session_complete_counterexample :
    (stepFn 375 0 (fun i => i) (Event.tapWord "당군") stageTenState).currentStage = 11 ∧
    stageTenState.maxStage = 10 ∧
    getCurrentScreen (stepFn 375 0 (fun i => i) (Event.tapWord "당군") stageTenState) =
      GameScreen.game ∧
    (stepFn 375 0 (fun i => i) (Event.tapWord "당군") stageTenState).allWords.length = 71 := by
  have hd : dispatchEvent (Event.tapWord "당군") stageTenState =
      { stageTenState with
          currentStage := 11
          showStageSelection := false
          gameOver := false } := by
    decide
  have hr : stepFn 375 0 (fun i => i) (Event.tapWord "당군") stageTenState =
      { stageTenState with
          currentStage := 11
          showStageSelection := false
          correctWord := (generateWords 375 11 GameMode.easy 0 (fun i => i)).1
          allWords := (generateWords 375 11 GameMode.easy 0 (fun i => i)).2
          timeLeft := 20
          gameOver := false } := by
    unfold stepFn
    rw [hd]
    rw [if_neg (by decide)]
    unfold roundStartEffect
    rw [if_neg (by decide)]
    rfl
  rw [hr]
  refine ⟨rfl, rfl, rfl, ?_⟩
  show (generateWords 375 11 GameMode.easy 0 (fun i => i)).2.length = 71
  rw [generateWords_length]
  norm_num [calculateStageDifficulty]
  decide

end WordGame
